import Mathlib

/-!
Verification development for the cache-population coordination layer of the
ad-observatory backend (src/common/caching.py, src/common/cache.py and the
custom cache-key makers in src/blueprints/google_dashboard/queries.py).

The Python code is shallowly embedded: pure functions become Lean functions,
attribute access and exceptions become Except, the mutable process state
(flask-caching store, IN_MEMORY_LOCKS registry, held locks) becomes an explicit
state record threaded through the operations, and the concurrent behaviour of
the per-key lock is a small-step transition system over thread program
counters.  Library code that the repository calls but does not contain
(flask_caching, the memoization package, CPython threading.Lock) is modelled
from the spec and the library documentation; every such definition says so in
its doc comment.
-/

set_option linter.unusedVariables false

namespace AdObservatory

/-- Python exceptions distinguished by the embedded code. -/
inductive PyErr where
  | attributeError
  | valueError
  | lockError
  | userExc (code : Nat)
deriving DecidableEq

/-- A handler return value.  status_code is none when the Python object has no
status_code attribute at all. -/
structure Resp where
  status_code : Option Int
deriving DecidableEq

/-- Python attribute read resp.status_code: raises AttributeError when the
attribute is absent. -/
def Resp.getStatusCode (r : Resp) : Except PyErr Int :=
  match r.status_code with
  | some v => Except.ok v
  | none => Except.error PyErr.attributeError

/-- Python hasattr(resp, ...) for the status_code attribute. -/
def Resp.hasStatusCode (r : Resp) : Bool :=
  r.status_code.isSome

/-- Embeds cache_if_response_no_server_error (src/common/caching.py lines
34-42; an identical copy sits in src/common/cache.py lines 7-15).  The
logging.debug call on the first line receives resp.status_code as an argument,
and Python evaluates call arguments eagerly, so the attribute is read before
the hasattr guard runs; only then comes the hasattr branch returning True, and
finally the range test 200 <= status_code < 500. -/
def cache_if_response_no_server_error (resp : Resp) : Except PyErr Bool :=
  match resp.getStatusCode with
  | Except.error e => Except.error e
  | Except.ok _ =>
    if resp.hasStatusCode = false then
      Except.ok true
    else
      match resp.getStatusCode with
      | Except.error e => Except.error e
      | Except.ok sc => Except.ok (decide (200 ≤ sc) && decide (sc < 500))

/-- Result of one call to CPython threading.Lock.acquire against a lock whose
holder (if any) does not release it during the call. -/
inductive TLAcquireRes where
  | success
  | failure
  | blocksForever
  | raised (e : PyErr)
deriving DecidableEq

/-- Modelled from the spec: semantics of CPython threading.Lock.acquire
(runtime code, not in src), per the CPython documentation.  Combining
blocking=False with a timeout other than the unset value -1 raises ValueError
(it is forbidden to specify a timeout for a non-blocking call); a negative
timeout other than -1 raises ValueError; otherwise a free lock is acquired,
and a lock held by another thread yields False for a non-blocking or timed
call, or an indefinite wait for a blocking call with unset timeout. -/
def threading_lock_acquire (heldByOther : Bool) (blocking : Bool) (timeout : Int) :
    TLAcquireRes :=
  if blocking = false ∧ timeout ≠ -1 then TLAcquireRes.raised PyErr.valueError
  else if timeout < -1 then TLAcquireRes.raised PyErr.valueError
  else if heldByOther then
    if blocking then
      if timeout = -1 then TLAcquireRes.blocksForever
      else TLAcquireRes.failure
    else TLAcquireRes.failure
  else TLAcquireRes.success

/-- Outcome of one pass through the acquire_lock context manager (entering and,
when entered, leaving the with-block). -/
inductive AcquireLockOutcome where
  | acquiredAndReleased
  | raised (e : PyErr)
  | blocksForever
deriving DecidableEq

/-- Embeds the local (no redis env vars) branch of acquire_lock
(src/common/caching.py lines 61-95): blocking is computed as
(blocking_timeout == -1); the registry mutex is acquired with
lock.acquire(blocking=blocking, timeout=blocking_timeout); when acquired is
False the code raises LockError; an exception from lock.acquire itself
propagates with acquired still False, so the finally clause does not release. -/
def acquire_lock (heldByOther : Bool) (blocking_timeout : Int) : AcquireLockOutcome :=
  let blocking : Bool := decide (blocking_timeout = -1)
  match threading_lock_acquire heldByOther blocking blocking_timeout with
  | TLAcquireRes.success => AcquireLockOutcome.acquiredAndReleased
  | TLAcquireRes.failure => AcquireLockOutcome.raised PyErr.lockError
  | TLAcquireRes.blocksForever => AcquireLockOutcome.blocksForever
  | TLAcquireRes.raised e => AcquireLockOutcome.raised e

/-- Seconds constants from src/common/date_utils.py lines 9-11. -/
def SIX_HOURS_IN_SECONDS : Nat := 21600

/-- One day, the default TTL of the cached-response wrapper
(src/common/date_utils.py line 11). -/
def ONE_DAY_IN_SECONDS : Nat := 86400

/-- First-match association-list lookup (dict access keyed by strings). -/
def alookup {α : Type} : List (String × α) → String → Option α
  | [], _ => none
  | (k2, v) :: rest, k => if k2 = k then some v else alookup rest k

/-- Remove the first occurrence of a string from a list (releasing one hold of
a lock name). -/
def eraseFirst : List String → String → List String
  | [], _ => []
  | x :: rest, k => if x = k then rest else x :: eraseFirst rest k

/-- One stored cache entry: the value together with its absolute expiry time
(store write time plus TTL). -/
structure CacheEntry where
  value : Resp
  expiry : Nat
deriving DecidableEq

/-- The process state visible to the caching layer: current time, the
flask-caching store (newest entry first), the IN_MEMORY_LOCKS registry
(src/common/caching.py line 26) mapping full lock names to mutex identities,
the counter handing out fresh mutex identities, the multiset of currently held
lock names, and instrumentation counters for wrapped-function invocations and
lock acquisitions. -/
structure PyState where
  now : Nat
  cache : List (String × CacheEntry)
  IN_MEMORY_LOCKS : List (String × Nat)
  nextMutexId : Nat
  held : List String
  fnCalls : Nat
  lockAcquires : Nat
deriving DecidableEq

/-- Modelled from the spec: flask-caching store read (library code not in
src).  Spec section 4.2: get after set with unexpired TTL returns the value;
after the TTL elapses get returns a miss (lazy expiry). -/
def storeGet (s : PyState) (k : String) : Option Resp :=
  match alookup s.cache k with
  | some e => if s.now < e.expiry then some e.value else none
  | none => none

/-- Modelled from the spec: flask-caching store write (library code not in
src).  Spec section 4.2: set(key, value, ttl) overwrites unconditionally; the
entry expires ttl seconds from now.  The newest entry is consed in front, and
alookup takes the first match, so older entries for the key are shadowed. -/
def storeSet (s : PyState) (k : String) (v : Resp) (ttl : Nat) : PyState :=
  { s with cache := (k, CacheEntry.mk v (s.now + ttl)) :: s.cache }

/-- full_lock_name as computed by acquire_lock (src/common/caching.py line 64)
in the local configuration: off app engine cache_key_prefix() is None, so the
join of the non-None parts is LOCK_NAME_PREFIX followed by the name, with
LOCK_NAME_PREFIX = "lock::" (line 25). -/
def fullLockName (name : String) : String := "lock::" ++ name

/-- The registry branch of acquire_lock (src/common/caching.py lines 77-81):
if the full lock name is already in IN_MEMORY_LOCKS use that mutex, else create
a fresh mutex and insert it under the name.  Returns the updated state and the
identity of the mutex used. -/
def registryLookupOrInsert (s : PyState) (name : String) : PyState × Nat :=
  match alookup s.IN_MEMORY_LOCKS name with
  | some m => (s, m)
  | none =>
    ({ s with
        IN_MEMORY_LOCKS := (name, s.nextMutexId) :: s.IN_MEMORY_LOCKS,
        nextMutexId := s.nextMutexId + 1 },
      s.nextMutexId)

/-- Entering the acquire_lock context manager (src/common/caching.py lines
77-91) in the sequential one-thread model, where the blocking default
blocking_timeout = -1 is in force and no other thread holds the mutex: look the
mutex up in the registry (creating it if needed), then acquire it. -/
def acquireLocal (s : PyState) (name : String) : PyState :=
  let s1 := (registryLookupOrInsert s name).1
  { s1 with held := name :: s1.held, lockAcquires := s1.lockAcquires + 1 }

/-- Leaving the acquire_lock context manager (src/common/caching.py lines
92-95): the finally clause releases the mutex iff it was acquired. -/
def releaseLocal (s : PyState) (name : String) : PyState :=
  { s with held := eraseFirst s.held name }

/-- One invocation of the wrapped function f (instrumentation only: the
returned value is supplied separately since f is deterministic). -/
def invokeFn (s : PyState) : PyState := { s with fnCalls := s.fnCalls + 1 }

/-- Modelled from the spec: the flask-caching cached wrapper body (library
code not in src).  Spec section 4.4: read the store; on a hit return the
stored value without invoking f; on a miss invoke f, and if the
collaborator-supplied predicate accepts the result store it with the TTL;
an exception from f or from the predicate propagates and nothing is stored. -/
def cachedWrapperCall (key : String) (ttl : Nat) (rfilter : Resp → Except PyErr Bool)
    (fres : Except PyErr Resp) (s : PyState) : Except PyErr Resp × PyState :=
  match storeGet s key with
  | some v => (Except.ok v, s)
  | none =>
    let s1 := invokeFn s
    match fres with
    | Except.error e => (Except.error e, s1)
    | Except.ok v =>
      match rfilter v with
      | Except.error e => (Except.error e, s1)
      | Except.ok true => (Except.ok v, storeSet s1 key v ttl)
      | Except.ok false => (Except.ok v, s1)

/-- Modelled from the spec: the flask-caching memoize wrapper body (library
code not in src).  As cachedWrapperCall but with no cacheability predicate:
every successful result is stored with the TTL. -/
def memoizedWrapperCall (key : String) (ttl : Nat) (fres : Except PyErr Resp)
    (s : PyState) : Except PyErr Resp × PyState :=
  match storeGet s key with
  | some v => (Except.ok v, s)
  | none =>
    let s1 := invokeFn s
    match fres with
    | Except.error e => (Except.error e, s1)
    | Except.ok v => (Except.ok v, storeSet s1 key v ttl)

/-- Embeds decorated_function of
cache_response_blocking_duplicate_generation_of_cache_payload
(src/common/caching.py lines 108-121).  The source builds
cached_function = global_cache.cached(...)(f) (pure wrapper construction, no
state effect), computes cache_key = cached_function.make_cache_key(...), and
then, inside with acquire_lock(cache_key), returns f(*args, **kwargs) — the
raw f, not cached_function — so the wrapper built on line 115 is never
invoked; ttl and rfilter are carried only into that unused wrapper.  An
exception from f propagates after the context manager releases the lock. -/
def cache_response_decorated (key : String) (ttl : Nat)
    (rfilter : Resp → Except PyErr Bool) (fres : Except PyErr Resp)
    (s : PyState) : Except PyErr Resp × PyState :=
  let s1 := acquireLocal s (fullLockName key)
  let s2 := invokeFn s1
  let s3 := releaseLocal s2 (fullLockName key)
  (fres, s3)

/-- Embeds decorated_function of
memoize_response_blocking_duplicate_generation_of_cache_payload
(src/common/caching.py lines 135-146): build the memoized wrapper, compute the
cache key, then inside with acquire_lock(cache_key) call the memoized wrapper
(which reads the store and on a miss invokes f and stores the result).  An
exception propagates after the context manager releases the lock. -/
def memoize_decorated (key : String) (ttl : Nat) (fres : Except PyErr Resp)
    (s : PyState) : Except PyErr Resp × PyState :=
  let s1 := acquireLocal s (fullLockName key)
  let rs2 := memoizedWrapperCall key ttl fres s1
  (rs2.1, releaseLocal rs2.2 (fullLockName key))

/-- The operations of src/common/caching.py that touch process-wide mutable
state: entering and leaving acquire_lock, a store write, the cache_clear
handler, and the passage of time (which only affects TTL expiry).  The
IN_MEMORY_LOCKS registry is read or written by acquire_lock alone. -/
inductive SysOp where
  | acquireLock (name : String)
  | releaseLock (name : String)
  | cacheSet (k : String) (v : Resp) (ttl : Nat)
  | cacheClear
  | tick (dt : Nat)
deriving DecidableEq

/-- Effect of each state-touching operation on the process state. -/
def applyOp (s : PyState) : SysOp → PyState
  | SysOp.acquireLock name => acquireLocal s (fullLockName name)
  | SysOp.releaseLock name => releaseLocal s (fullLockName name)
  | SysOp.cacheSet k v ttl => storeSet s k v ttl
  | SysOp.cacheClear => { s with cache := [] }
  | SysOp.tick dt => { s with now := s.now + dt }

/-- Ordering on keyword pairs: by name, ties broken by value, both in their
stable textual representation.  Sorting kwargs with this order realizes the
"sorted by name before hashing" normalization of spec section 4.1. -/
def kwLE (a b : String × String) : Prop :=
  a.1 < b.1 ∨ (a.1 = b.1 ∧ a.2 ≤ b.2)

instance kwLE.decRel : DecidableRel kwLE := fun a b =>
  decidable_of_iff (a.1 < b.1 ∨ (a.1 = b.1 ∧ a.2 ≤ b.2)) Iff.rfl

instance kwLE.total : IsTotal (String × String) kwLE where
  total a b := by
    rcases lt_trichotomy a.1 b.1 with h | h | h
    · exact Or.inl (Or.inl h)
    · rcases le_total a.2 b.2 with h2 | h2
      · exact Or.inl (Or.inr ⟨h, h2⟩)
      · exact Or.inr (Or.inr ⟨h.symm, h2⟩)
    · exact Or.inr (Or.inl h)

instance kwLE.trans : IsTrans (String × String) kwLE where
  trans a b c hab hbc := by
    rcases hab with h1 | ⟨e1, l1⟩
    · rcases hbc with h2 | ⟨e2, l2⟩
      · exact Or.inl (lt_trans h1 h2)
      · exact Or.inl (lt_of_lt_of_eq h1 e2)
    · rcases hbc with h2 | ⟨e2, l2⟩
      · exact Or.inl (lt_of_eq_of_lt e1 h2)
      · exact Or.inr ⟨e1.trans e2, le_trans l1 l2⟩

instance kwLE.antisymm : IsAntisymm (String × String) kwLE where
  antisymm a b hab hba := by
    rcases hab with h1 | ⟨e1, l1⟩
    · rcases hba with h2 | ⟨e2, l2⟩
      · exact absurd h2 (lt_asymm h1)
      · exact absurd (lt_of_lt_of_eq h1 e2) (lt_irrefl a.1)
    · rcases hba with h2 | ⟨e2, l2⟩
      · exact absurd (lt_of_lt_of_eq h2 e1) (lt_irrefl b.1)
      · exact Prod.ext e1 (le_antisymm l1 l2)

/-- Name-sorted canonical form of a keyword-argument list. -/
def sortKw (kwargs : List (String × String)) : List (String × String) :=
  List.insertionSort kwLE kwargs

/-- A cache key as produced by an argument-derived key maker: the positional
values in call order and the keyword pairs in name-sorted order. -/
structure CacheKey where
  args : List String
  kwargs : List (String × String)
deriving DecidableEq

/-- Modelled from the spec: make_key of
memoization.caching.general.keys_order_independent (library code, not in src).
Spec section 4.1: deterministic and pure, combining the positional values in
call order with the keyword pairs sorted by name; distinct argument values
give distinct keys with overwhelming probability, modelled as the canonical
injective representation.  Values appear in their stable textual form. -/
def make_key (args : List String) (kwargs : List (String × String)) : CacheKey :=
  CacheKey.mk args (sortKw kwargs)

/-- Embeds top_political_advertisers_since_date_cache_key_maker
(src/blueprints/google_dashboard/queries.py lines 31-42): the key is
make_key([start_date, end_date, region, page], []); the session argument is
an opaque object identity. -/
def top_political_advertisers_since_date_cache_key_maker (session : Nat)
    (start_date end_date region page page_size : String) : CacheKey :=
  make_key [start_date, end_date, region, page] []

/-- Embeds top_ad_uploaders_since_date_cache_key_maker
(src/blueprints/google_dashboard/queries.py lines 196-200): the key is
make_key([start_date, end_date, page], []). -/
def top_ad_uploaders_since_date_cache_key_maker (session : Nat)
    (start_date end_date page page_size : String) : CacheKey :=
  make_key [start_date, end_date, page] []

/-- A normalized cache key carrying the computation identity. -/
structure NormalizedKey where
  identity : String
  args : List String
  kwargs : List (String × String)
deriving DecidableEq

/-- Modelled from the spec: the KeyNormalizer contract realized by
flask_caching make_cache_key for memoized functions (library code, not in
src).  Spec section 4.1: keyword arguments are sorted by name before being
combined with the computation identity and the positional arguments, which
stay in call order. -/
def normalized_cache_key (identity : String) (args : List String)
    (kwargs : List (String × String)) : NormalizedKey :=
  NormalizedKey.mk identity args (sortKw kwargs)

/-- Program counter of one caller thread executing the body of
memoize_decorated for one shared key: before the lock (idle); holding the lock
and about to read the store (checking), about to run the wrapped fn after a
miss (running), about to store the result (writing), about to release
(releasing); finished (done). -/
inductive PC where
  | idle
  | checking
  | running
  | writing
  | releasing
  | done
deriving DecidableEq

/-- Global state of n caller threads contending for the same key on the local
backend: who holds the per-key mutex, whether the store has been populated for
the key, each thread program counter, and which threads have run the wrapped
fn. -/
structure CState (n : Nat) where
  lock : Option (Fin n)
  cachePopulated : Bool
  pc : Fin n → PC
  execs : Fin n → Bool
deriving DecidableEq

/-- Interleaving semantics of the n callers (src/common/caching.py lines
77-95 for the mutex discipline and lines 135-146 for the critical-section
body): a thread acquires the mutex only when no thread holds it; inside the
critical section it reads the store, runs fn only on a miss, stores the
result, and releases.  Nothing clears the store during the run. -/
inductive CStep (n : Nat) : CState n → CState n → Prop where
  | acquire (s : CState n) (i : Fin n) (hpc : s.pc i = PC.idle) (hl : s.lock = none) :
      CStep n s { s with lock := some i, pc := Function.update s.pc i PC.checking }
  | checkHit (s : CState n) (i : Fin n) (hpc : s.pc i = PC.checking)
      (hc : s.cachePopulated = true) :
      CStep n s { s with pc := Function.update s.pc i PC.releasing }
  | checkMiss (s : CState n) (i : Fin n) (hpc : s.pc i = PC.checking)
      (hc : s.cachePopulated = false) :
      CStep n s { s with pc := Function.update s.pc i PC.running }
  | runFn (s : CState n) (i : Fin n) (hpc : s.pc i = PC.running) :
      CStep n s { s with execs := Function.update s.execs i true,
                         pc := Function.update s.pc i PC.writing }
  | writeCache (s : CState n) (i : Fin n) (hpc : s.pc i = PC.writing) :
      CStep n s { s with cachePopulated := true,
                         pc := Function.update s.pc i PC.releasing }
  | release (s : CState n) (i : Fin n) (hpc : s.pc i = PC.releasing) :
      CStep n s { s with lock := none, pc := Function.update s.pc i PC.done }

/-- Initial state: lock free, key absent from the store (every caller misses),
all threads before their call. -/
def cinit (n : Nat) : CState n :=
  { lock := none, cachePopulated := false, pc := fun _ => PC.idle,
    execs := fun _ => false }

/-- States reachable from the initial state by interleaved steps. -/
def CReach (n : Nat) (s : CState n) : Prop :=
  Relation.ReflTransGen (CStep n) (cinit n) s

/-- Thread i is inside the critical section (between a successful mutex
acquisition and the corresponding release). -/
def inCS {n : Nat} (s : CState n) (i : Fin n) : Prop :=
  s.pc i = PC.checking ∨ s.pc i = PC.running ∨ s.pc i = PC.writing ∨
    s.pc i = PC.releasing

/-- Number of threads that have executed the wrapped fn. -/
def execCount {n : Nat} (s : CState n) : Nat :=
  (Finset.univ.filter (fun i => s.execs i = true)).card

/-- Inductive invariant of the contention system: a thread in its critical
section holds the mutex; a thread about to store has run fn; a populated store
means some thread ran fn; a thread at or past release ran fn itself or saw the
store populated. -/
def CInv {n : Nat} (s : CState n) : Prop :=
  (∀ i, inCS s i → s.lock = some i) ∧
  (∀ i, s.pc i = PC.writing → s.execs i = true) ∧
  (s.cachePopulated = true → ∃ i, s.execs i = true) ∧
  (∀ i, s.pc i = PC.releasing ∨ s.pc i = PC.done →
    s.execs i = true ∨ s.cachePopulated = true)

/-- A fresh process state: empty cache, empty lock registry, nothing held. -/
def st0 : PyState :=
  { now := 0, cache := [], IN_MEMORY_LOCKS := [], nextMutexId := 0, held := [],
    fnCalls := 0, lockAcquires := 0 }

/-- A state whose cache already holds key "k" (a 200 response, unexpired). -/
def stHit : PyState :=
  { now := 0, cache := [("k", CacheEntry.mk (Resp.mk (some 200)) 100)],
    IN_MEMORY_LOCKS := [], nextMutexId := 0, held := [], fnCalls := 0,
    lockAcquires := 0 }

/-- A state whose lock registry already holds the full lock name for "k". -/
def stReg : PyState :=
  { now := 0, cache := [], IN_MEMORY_LOCKS := [("lock::k", 0)], nextMutexId := 1,
    held := [], fnCalls := 0, lockAcquires := 0 }

/-- Intermediate states of a complete one-caller run of the contention
system, used to exhibit a concrete reachable final state. -/
def cs1 : CState 1 :=
  { cinit 1 with lock := some 0, pc := Function.update (cinit 1).pc 0 PC.checking }

/-- After the sole caller observes the miss. -/
def cs2 : CState 1 := { cs1 with pc := Function.update cs1.pc 0 PC.running }

/-- After the sole caller runs the wrapped fn. -/
def cs3 : CState 1 :=
  { cs2 with execs := Function.update cs2.execs 0 true,
             pc := Function.update cs2.pc 0 PC.writing }

/-- After the sole caller stores the result. -/
def cs4 : CState 1 :=
  { cs3 with cachePopulated := true, pc := Function.update cs3.pc 0 PC.releasing }

/-- After the sole caller releases the mutex: the complete run. -/
def cs5 : CState 1 :=
  { cs4 with lock := none, pc := Function.update cs4.pc 0 PC.done }

/- ------------------------------------------------------------------ -/
/- Helper lemmas shared by the claim theorems.                        -/
/- ------------------------------------------------------------------ -/

theorem registryLookupOrInsert_cache (s : PyState) (nm : String) :
    ((registryLookupOrInsert s nm).1).cache = s.cache := by
  unfold registryLookupOrInsert
  cases alookup s.IN_MEMORY_LOCKS nm <;> rfl

theorem registryLookupOrInsert_now (s : PyState) (nm : String) :
    ((registryLookupOrInsert s nm).1).now = s.now := by
  unfold registryLookupOrInsert
  cases alookup s.IN_MEMORY_LOCKS nm <;> rfl

theorem registryLookupOrInsert_held (s : PyState) (nm : String) :
    ((registryLookupOrInsert s nm).1).held = s.held := by
  unfold registryLookupOrInsert
  cases alookup s.IN_MEMORY_LOCKS nm <;> rfl

theorem registryLookupOrInsert_fnCalls (s : PyState) (nm : String) :
    ((registryLookupOrInsert s nm).1).fnCalls = s.fnCalls := by
  unfold registryLookupOrInsert
  cases alookup s.IN_MEMORY_LOCKS nm <;> rfl

theorem registryLookupOrInsert_lockAcquires (s : PyState) (nm : String) :
    ((registryLookupOrInsert s nm).1).lockAcquires = s.lockAcquires := by
  unfold registryLookupOrInsert
  cases alookup s.IN_MEMORY_LOCKS nm <;> rfl

theorem storeGet_only_cache_now (s t : PyState) (k : String)
    (hc : t.cache = s.cache) (hn : t.now = s.now) : storeGet t k = storeGet s k := by
  unfold storeGet
  rw [hc, hn]

theorem storeGet_acquireLocal (s : PyState) (nm k : String) :
    storeGet (acquireLocal s nm) k = storeGet s k := by
  apply storeGet_only_cache_now
  · exact registryLookupOrInsert_cache s nm
  · exact registryLookupOrInsert_now s nm

theorem acquireLocal_cache (s : PyState) (nm : String) :
    (acquireLocal s nm).cache = s.cache := registryLookupOrInsert_cache s nm

theorem acquireLocal_now (s : PyState) (nm : String) :
    (acquireLocal s nm).now = s.now := registryLookupOrInsert_now s nm

theorem acquireLocal_held (s : PyState) (nm : String) :
    (acquireLocal s nm).held = nm :: s.held := by
  simp only [acquireLocal]
  rw [registryLookupOrInsert_held]

theorem acquireLocal_fnCalls (s : PyState) (nm : String) :
    (acquireLocal s nm).fnCalls = s.fnCalls := registryLookupOrInsert_fnCalls s nm

theorem acquireLocal_lockAcquires (s : PyState) (nm : String) :
    (acquireLocal s nm).lockAcquires = s.lockAcquires + 1 := by
  simp only [acquireLocal]
  rw [registryLookupOrInsert_lockAcquires]

theorem eraseFirst_cons_self (l : List String) (k : String) :
    eraseFirst (k :: l) k = l := by
  unfold eraseFirst
  simp

/- ------------------------------------------------------------------ -/
/- Claim theorems.                                                    -/
/- ------------------------------------------------------------------ -/

/-- C5: in the local variant with the lock held by another owner, acquire_lock
with blocking_timeout 0 or a positive T does not raise LockError: the code
computes blocking as (blocking_timeout == -1) yet still passes the timeout to
threading.Lock.acquire, which rejects a timeout on a non-blocking call with
ValueError, and that ValueError propagates - even when the lock is free. -/
theorem acquire_lock_nonblocking_raises_value_error :
    acquire_lock true 0 = AcquireLockOutcome.raised PyErr.valueError ∧
    acquire_lock true 5 = AcquireLockOutcome.raised PyErr.valueError ∧
    acquire_lock false 0 = AcquireLockOutcome.raised PyErr.valueError ∧
    acquire_lock true 0 ≠ AcquireLockOutcome.raised PyErr.lockError := by
  decide

/-- C10: for a result object with no status_code attribute,
cache_if_response_no_server_error does not return True: the logging.debug call
on its first line reads resp.status_code eagerly and raises AttributeError
before the hasattr guard can run. -/
theorem cache_if_response_missing_attribute_raises :
    cache_if_response_no_server_error (Resp.mk none) =
      Except.error PyErr.attributeError ∧
    cache_if_response_no_server_error (Resp.mk none) ≠ Except.ok true :=
  ⟨rfl, fun h => Except.noConfusion h⟩

/-- C1: the cached-response wrapper never writes the computed result to the
cache store: starting from an empty cache with a 200 response accepted by the
filter, the call leaves the cache empty (and the store read still misses), and
a second identical call invokes the wrapped function again instead of being
served from the cache - the source calls the raw f inside the lock, never the
flask-caching wrapper that holds the get/set logic. -/
theorem cache_response_wrapper_never_populates_cache :
    ((cache_response_decorated "k" ONE_DAY_IN_SECONDS
        cache_if_response_no_server_error
        (Except.ok (Resp.mk (some 200))) st0).2.cache = []) ∧
    (storeGet (cache_response_decorated "k" ONE_DAY_IN_SECONDS
        cache_if_response_no_server_error
        (Except.ok (Resp.mk (some 200))) st0).2 "k" = none) ∧
    ((cache_response_decorated "k" ONE_DAY_IN_SECONDS
        cache_if_response_no_server_error
        (Except.ok (Resp.mk (some 200)))
        (cache_response_decorated "k" ONE_DAY_IN_SECONDS
          cache_if_response_no_server_error
          (Except.ok (Resp.mk (some 200))) st0).2).2.fnCalls = 2) := by
  refine ⟨rfl, rfl, rfl⟩

/-- C6 counterexample: two calls to the advertiser key maker that differ only
in page_size (30 versus 10) - an argument distinct from the excluded session -
produce the same cache key. -/
theorem key_maker_ignores_page_size :
    top_political_advertisers_since_date_cache_key_maker 0 "2020-01-01"
        "2021-01-01" "US" "1" "30" =
      top_political_advertisers_since_date_cache_key_maker 0 "2020-01-01"
        "2021-01-01" "US" "1" "10" ∧
    ("30" : String) ≠ "10" := by
  exact ⟨rfl, by decide⟩

/-- C6 amended: each key maker ignores the session and also page_size, and is
injective in all remaining arguments: the advertiser keys coincide exactly
when start_date, end_date, region and page agree, and the uploader keys
exactly when start_date, end_date and page agree. -/
theorem key_maker_injective_outside_session_and_page_size
    (se1 se2 : Nat) (sd1 ed1 r1 p1 ps1 sd2 ed2 r2 p2 ps2 : String) :
    (top_political_advertisers_since_date_cache_key_maker se1 sd1 ed1 r1 p1 ps1 =
        top_political_advertisers_since_date_cache_key_maker se2 sd2 ed2 r2 p2 ps2 ↔
      (sd1 = sd2 ∧ ed1 = ed2 ∧ r1 = r2 ∧ p1 = p2)) ∧
    (top_ad_uploaders_since_date_cache_key_maker se1 sd1 ed1 p1 ps1 =
        top_ad_uploaders_since_date_cache_key_maker se2 sd2 ed2 p2 ps2 ↔
      (sd1 = sd2 ∧ ed1 = ed2 ∧ p1 = p2)) := by
  constructor <;>
    simp [top_political_advertisers_since_date_cache_key_maker,
      top_ad_uploaders_since_date_cache_key_maker, make_key, sortKw,
      CacheKey.mk.injEq, and_assoc]

/-- C2 counterexample: with key "k" already cached and unexpired, a call
through the memoize wrapper still acquires the per-key lock (the acquisition
counter rises from 0 to 1), refuting that no lock is taken on the hit path;
the cached value is returned and the wrapped fn is not invoked. -/
theorem memoize_hit_path_takes_lock :
    ((memoize_decorated "k" 60 (Except.ok (Resp.mk (some 418))) stHit).1 =
      Except.ok (Resp.mk (some 200))) ∧
    ((memoize_decorated "k" 60 (Except.ok (Resp.mk (some 418))) stHit).2.fnCalls = 0) ∧
    ¬ ((memoize_decorated "k" 60 (Except.ok (Resp.mk (some 418)))
        stHit).2.lockAcquires = 0) := by
  refine ⟨rfl, rfl, by decide⟩

/-- C2 amended: a call whose key is present and unexpired returns the cached
value without invoking the wrapped fn and leaves the cache unchanged, but the
per-key lock is acquired (exactly once) and released on the hit path as well:
the store read happens inside the lock. -/
theorem memoize_hit_returns_cached_value_under_lock
    (s : PyState) (key : String) (ttl : Nat) (fres : Except PyErr Resp) (v : Resp)
    (hhit : storeGet s key = some v) :
    (memoize_decorated key ttl fres s).1 = Except.ok v ∧
    (memoize_decorated key ttl fres s).2.fnCalls = s.fnCalls ∧
    (memoize_decorated key ttl fres s).2.cache = s.cache ∧
    (memoize_decorated key ttl fres s).2.lockAcquires = s.lockAcquires + 1 ∧
    (memoize_decorated key ttl fres s).2.held = s.held := by
  have hget : storeGet (acquireLocal s (fullLockName key)) key = some v := by
    rw [storeGet_acquireLocal]; exact hhit
  simp only [memoize_decorated, memoizedWrapperCall]
  rw [hget]
  refine ⟨rfl, ?_, ?_, ?_, ?_⟩
  · simp [releaseLocal, acquireLocal_fnCalls]
  · simp [releaseLocal, acquireLocal_cache]
  · simp [releaseLocal, acquireLocal_lockAcquires]
  · simp [releaseLocal, acquireLocal_held, eraseFirst_cons_self]

/-- C2 amended witness at a concrete hit state. -/
theorem memoize_hit_returns_cached_value_under_lock_witness :
    (memoize_decorated "k" 60 (Except.ok (Resp.mk (some 418))) stHit).1 =
      Except.ok (Resp.mk (some 200)) ∧
    (memoize_decorated "k" 60 (Except.ok (Resp.mk (some 418))) stHit).2.fnCalls =
      stHit.fnCalls ∧
    (memoize_decorated "k" 60 (Except.ok (Resp.mk (some 418))) stHit).2.cache =
      stHit.cache ∧
    (memoize_decorated "k" 60 (Except.ok (Resp.mk (some 418))) stHit).2.lockAcquires =
      stHit.lockAcquires + 1 ∧
    (memoize_decorated "k" 60 (Except.ok (Resp.mk (some 418))) stHit).2.held =
      stHit.held :=
  memoize_hit_returns_cached_value_under_lock stHit "k" 60
    (Except.ok (Resp.mk (some 418))) (Resp.mk (some 200)) (by decide)

/-- C4: when the wrapped fn raises e on a miss, the memoize wrapper propagates
exactly e to the caller, writes nothing to the cache, and restores the held
locks (the context manager finally clause releases on the exception path), so
a subsequent acquire of the same name succeeds immediately; the key still
misses afterwards. -/
theorem memoize_exception_propagates_releases_lock_caches_nothing
    (s : PyState) (key : String) (ttl : Nat) (e : PyErr)
    (hmiss : storeGet s key = none) :
    (memoize_decorated key ttl (Except.error e) s).1 = Except.error e ∧
    (memoize_decorated key ttl (Except.error e) s).2.cache = s.cache ∧
    (memoize_decorated key ttl (Except.error e) s).2.held = s.held ∧
    storeGet (memoize_decorated key ttl (Except.error e) s).2 key = none := by
  have hget : storeGet (acquireLocal s (fullLockName key)) key = none := by
    rw [storeGet_acquireLocal]; exact hmiss
  simp only [memoize_decorated, memoizedWrapperCall]
  rw [hget]
  refine ⟨rfl, ?_, ?_, ?_⟩
  · simp [releaseLocal, invokeFn, acquireLocal_cache]
  · simp [releaseLocal, invokeFn, acquireLocal_held, eraseFirst_cons_self]
  · exact (storeGet_only_cache_now s _ key
      (by simp [releaseLocal, invokeFn, acquireLocal_cache])
      (by simp [releaseLocal, invokeFn, acquireLocal_now])).trans hmiss

/-- C4 witness at a concrete missing key and a concrete exception. -/
theorem memoize_exception_propagates_witness :
    (memoize_decorated "k" 60 (Except.error (PyErr.userExc 7)) st0).1 =
      Except.error (PyErr.userExc 7) ∧
    (memoize_decorated "k" 60 (Except.error (PyErr.userExc 7)) st0).2.cache =
      st0.cache ∧
    (memoize_decorated "k" 60 (Except.error (PyErr.userExc 7)) st0).2.held =
      st0.held ∧
    storeGet (memoize_decorated "k" 60 (Except.error (PyErr.userExc 7)) st0).2 "k" =
      none :=
  memoize_exception_propagates_releases_lock_caches_nothing st0 "k" 60
    (PyErr.userExc 7) (by decide)

/-- C9: the IN_MEMORY_LOCKS registry grows monotonically: every state-touching
operation keeps the existing entries as a suffix (inserting at most one new
entry in front, never removing any); after an acquire the full lock name is
registered; and an acquire for an already-registered name reuses the same
mutex identity and leaves the registry unchanged. -/
theorem in_memory_locks_registry_monotone
    (s : PyState) (op : SysOp) (name : String) :
    s.IN_MEMORY_LOCKS.IsSuffix (applyOp s op).IN_MEMORY_LOCKS ∧
    ((alookup (applyOp s (SysOp.acquireLock name)).IN_MEMORY_LOCKS
        (fullLockName name)).isSome = true) ∧
    (∀ m, alookup s.IN_MEMORY_LOCKS (fullLockName name) = some m →
      (applyOp s (SysOp.acquireLock name)).IN_MEMORY_LOCKS = s.IN_MEMORY_LOCKS ∧
      alookup (applyOp s (SysOp.acquireLock name)).IN_MEMORY_LOCKS
          (fullLockName name) = some m) := by
  refine ⟨?_, ?_, ?_⟩
  · cases op with
    | acquireLock nm =>
      simp only [applyOp, acquireLocal, registryLookupOrInsert]
      cases h : alookup s.IN_MEMORY_LOCKS (fullLockName nm) with
      | some m => simp [h]
      | none => simp [h, List.suffix_cons]
    | releaseLock nm => exact List.suffix_refl _
    | cacheSet k v ttl => exact List.suffix_refl _
    | cacheClear => exact List.suffix_refl _
    | tick dt => exact List.suffix_refl _
  · simp only [applyOp, acquireLocal, registryLookupOrInsert]
    cases h : alookup s.IN_MEMORY_LOCKS (fullLockName name) with
    | some m => simp [h]
    | none => simp [h, alookup]
  · intro m hm
    simp [applyOp, acquireLocal, registryLookupOrInsert, hm]

/-- C9 witness: a clear leaves the registry in place, and a second acquire for
the registered name "k" reuses mutex 0 without growing the registry. -/
theorem in_memory_locks_registry_monotone_witness :
    stReg.IN_MEMORY_LOCKS.IsSuffix (applyOp stReg SysOp.cacheClear).IN_MEMORY_LOCKS ∧
    ((alookup (applyOp stReg (SysOp.acquireLock "k")).IN_MEMORY_LOCKS
        (fullLockName "k")).isSome = true) ∧
    ((applyOp stReg (SysOp.acquireLock "k")).IN_MEMORY_LOCKS =
        stReg.IN_MEMORY_LOCKS ∧
      alookup (applyOp stReg (SysOp.acquireLock "k")).IN_MEMORY_LOCKS
          (fullLockName "k") = some 0) := by
  have h := in_memory_locks_registry_monotone stReg SysOp.cacheClear "k"
  exact ⟨h.1, h.2.1, h.2.2 0 (by decide)⟩

/-- C8: for a response carrying an integer status code s, the cacheability
predicate returns True exactly when 200 <= s < 500; and with this predicate as
the response filter, the cached wrapper leaves the store untouched for a
server-error result (s >= 500). -/
theorem cache_if_response_no_server_error_iff_status_in_range (s : Int) :
    (cache_if_response_no_server_error (Resp.mk (some s)) = Except.ok true ↔
      (200 ≤ s ∧ s < 500)) ∧
    (∀ (st : PyState) (key : String) (ttl : Nat), 500 ≤ s →
      (cachedWrapperCall key ttl cache_if_response_no_server_error
        (Except.ok (Resp.mk (some s))) st).2.cache = st.cache) := by
  constructor
  · simp [cache_if_response_no_server_error, Resp.getStatusCode, Resp.hasStatusCode]
  · intro st key ttl h5
    have hfalse : decide (s < 500) = false := by
      simp only [decide_eq_false_iff_not]
      omega
    cases hget : storeGet st key with
    | some v => simp [cachedWrapperCall, hget]
    | none =>
      simp [cachedWrapperCall, hget, cache_if_response_no_server_error,
        Resp.getStatusCode, Resp.hasStatusCode, hfalse, invokeFn]

/-- C8 witness at the concrete server-error status 503. -/
theorem cache_if_response_no_server_error_witness :
    (cache_if_response_no_server_error (Resp.mk (some 503)) = Except.ok true ↔
      (200 ≤ (503 : Int) ∧ (503 : Int) < 500)) ∧
    (cachedWrapperCall "k" 60 cache_if_response_no_server_error
      (Except.ok (Resp.mk (some 503))) st0).2.cache = st0.cache := by
  have h := cache_if_response_no_server_error_iff_status_in_range 503
  exact ⟨h.1, h.2 st0 "k" 60 (by decide)⟩

/-- C7: cache-key derivation is order-independent in keyword arguments - any
permutation of the keyword pairs yields the same normalized key - while
positional-argument order remains significant: swapping two distinct
positional values changes the key. -/
theorem normalized_cache_key_kwargs_order_independent
    (identity : String) (args : List String) (kw1 kw2 : List (String × String))
    (hperm : kw1.Perm kw2) :
    normalized_cache_key identity args kw1 =
      normalized_cache_key identity args kw2 ∧
    (∀ x y : String, x ≠ y →
      normalized_cache_key identity [x, y] kw1 ≠
        normalized_cache_key identity [y, x] kw1) := by
  constructor
  · have hsort : sortKw kw1 = sortKw kw2 :=
      List.eq_of_perm_of_sorted
        ((List.perm_insertionSort kwLE kw1).trans
          (hperm.trans (List.perm_insertionSort kwLE kw2).symm))
        (List.sorted_insertionSort kwLE kw1) (List.sorted_insertionSort kwLE kw2)
    simp [normalized_cache_key, hsort]
  · intro x y hxy h
    apply hxy
    have harg := congrArg NormalizedKey.args h
    simp [normalized_cache_key] at harg
    exact harg.1

/-- C7 witness: concrete keyword pairs given in both orders agree, while a
positional swap of distinct values differs. -/
theorem normalized_cache_key_kwargs_order_independent_witness :
    (normalized_cache_key "f" ["7"] [("a", "1"), ("b", "2")] =
      normalized_cache_key "f" ["7"] [("b", "2"), ("a", "1")]) ∧
    (normalized_cache_key "f" ["0", "1"] [("a", "1"), ("b", "2")] ≠
      normalized_cache_key "f" ["1", "0"] [("a", "1"), ("b", "2")]) := by
  have h := normalized_cache_key_kwargs_order_independent "f" ["7"]
    [("a", "1"), ("b", "2")] [("b", "2"), ("a", "1")]
    (List.Perm.swap ("b", "2") ("a", "1") [])
  exact ⟨h.1, h.2 "0" "1" (by decide)⟩

theorem cinv_init (n : Nat) : CInv (cinit n) := by
  refine ⟨fun i hi => ?_, fun i hi => ?_, fun hc => ?_, fun i hi => ?_⟩
  · simp [cinit, inCS] at hi
  · simp [cinit] at hi
  · simp [cinit] at hc
  · simp [cinit] at hi

theorem cinv_step {n : Nat} {s t : CState n} (hstep : CStep n s t) (hinv : CInv s) :
    CInv t := by
  obtain ⟨h1, h2, h3, h4⟩ := hinv
  cases hstep with
  | acquire i hpc hl =>
    refine ⟨fun j hj => ?_, fun j hj => ?_, fun hc => h3 hc, fun j hj => ?_⟩
    · simp only [inCS, Function.update_apply] at hj
      by_cases hji : j = i
      · rw [hji]
      · simp only [if_neg hji] at hj
        have hlj := h1 j hj
        rw [hl] at hlj
        exact Option.noConfusion hlj
    · simp only [Function.update_apply] at hj
      by_cases hji : j = i
      · simp [hji] at hj
      · simp only [if_neg hji] at hj
        exact h2 j hj
    · simp only [Function.update_apply] at hj
      by_cases hji : j = i
      · simp [hji] at hj
      · simp only [if_neg hji] at hj
        exact h4 j hj
  | checkHit i hpc hc =>
    refine ⟨fun j hj => ?_, fun j hj => ?_, fun hcp => h3 hcp, fun j hj => ?_⟩
    · simp only [inCS, Function.update_apply] at hj
      by_cases hji : j = i
      · rw [hji]; exact h1 i (Or.inl hpc)
      · simp only [if_neg hji] at hj
        exact h1 j hj
    · simp only [Function.update_apply] at hj
      by_cases hji : j = i
      · simp [hji] at hj
      · simp only [if_neg hji] at hj
        exact h2 j hj
    · simp only [Function.update_apply] at hj
      by_cases hji : j = i
      · exact Or.inr hc
      · simp only [if_neg hji] at hj
        exact h4 j hj
  | checkMiss i hpc hc =>
    refine ⟨fun j hj => ?_, fun j hj => ?_, fun hcp => h3 hcp, fun j hj => ?_⟩
    · simp only [inCS, Function.update_apply] at hj
      by_cases hji : j = i
      · rw [hji]; exact h1 i (Or.inl hpc)
      · simp only [if_neg hji] at hj
        exact h1 j hj
    · simp only [Function.update_apply] at hj
      by_cases hji : j = i
      · simp [hji] at hj
      · simp only [if_neg hji] at hj
        exact h2 j hj
    · simp only [Function.update_apply] at hj
      by_cases hji : j = i
      · simp [hji] at hj
      · simp only [if_neg hji] at hj
        exact h4 j hj
  | runFn i hpc =>
    refine ⟨fun j hj => ?_, fun j hj => ?_, fun hcp => ?_, fun j hj => ?_⟩
    · simp only [inCS, Function.update_apply] at hj
      by_cases hji : j = i
      · rw [hji]; exact h1 i (Or.inr (Or.inl hpc))
      · simp only [if_neg hji] at hj
        exact h1 j hj
    · simp only [Function.update_apply] at hj ⊢
      by_cases hji : j = i
      · simp [hji]
      · simp only [if_neg hji] at hj ⊢
        exact h2 j hj
    · obtain ⟨j, hj⟩ := h3 hcp
      by_cases hji : j = i
      · exact ⟨i, by simp [Function.update_apply]⟩
      · refine ⟨j, ?_⟩
        simp only [Function.update_apply, if_neg hji]
        exact hj
    · simp only [Function.update_apply] at hj
      by_cases hji : j = i
      · simp [hji] at hj
      · simp only [if_neg hji] at hj
        rcases h4 j hj with hx | hcp
        · refine Or.inl ?_
          simp only [Function.update_apply, if_neg hji]
          exact hx
        · exact Or.inr hcp
  | writeCache i hpc =>
    refine ⟨fun j hj => ?_, fun j hj => ?_, fun hcp => ⟨i, h2 i hpc⟩,
      fun j hj => Or.inr rfl⟩
    · simp only [inCS, Function.update_apply] at hj
      by_cases hji : j = i
      · rw [hji]; exact h1 i (Or.inr (Or.inr (Or.inl hpc)))
      · simp only [if_neg hji] at hj
        exact h1 j hj
    · simp only [Function.update_apply] at hj
      by_cases hji : j = i
      · simp [hji] at hj
      · simp only [if_neg hji] at hj
        exact h2 j hj
  | release i hpc =>
    refine ⟨fun j hj => ?_, fun j hj => ?_, fun hcp => h3 hcp, fun j hj => ?_⟩
    · simp only [inCS, Function.update_apply] at hj
      by_cases hji : j = i
      · simp [hji] at hj
      · simp only [if_neg hji] at hj
        have hlj := h1 j hj
        have hli := h1 i (Or.inr (Or.inr (Or.inr hpc)))
        rw [hli] at hlj
        exact absurd (Option.some.inj hlj).symm hji
    · simp only [Function.update_apply] at hj
      by_cases hji : j = i
      · simp [hji] at hj
      · simp only [if_neg hji] at hj
        exact h2 j hj
    · simp only [Function.update_apply] at hj
      by_cases hji : j = i
      · rw [hji]; exact h4 i (Or.inl hpc)
      · simp only [if_neg hji] at hj
        exact h4 j hj

theorem cinv_reach {n : Nat} {s : CState n} (h : CReach n s) : CInv s := by
  unfold CReach at h
  induction h with
  | refl => exact cinv_init n
  | tail hsteps hstep ih => exact cinv_step hstep ih

/-- C3: in every reachable state of n callers contending for one key, at most
one caller is inside the recompute-and-store critical section (the per-name
mutex is held by at most one thread at any instant), and in a completed run
the wrapped fn has executed at least once and at most n times. -/
theorem single_flight_mutual_exclusion_and_execution_bounds
    {n : Nat} {s : CState n} (hreach : CReach n s) :
    (∀ i j : Fin n, inCS s i → inCS s j → i = j) ∧
    (0 < n → (∀ i, s.pc i = PC.done) →
      1 ≤ execCount s ∧ execCount s ≤ n) := by
  obtain ⟨h1, h2, h3, h4⟩ := cinv_reach hreach
  constructor
  · intro i j hi hj
    have hli := h1 i hi
    have hlj := h1 j hj
    rw [hli] at hlj
    exact Option.some.inj hlj
  · intro hn hdone
    constructor
    · have hex : ∃ j, s.execs j = true := by
        rcases h4 ⟨0, hn⟩ (Or.inr (hdone ⟨0, hn⟩)) with hx | hc
        · exact ⟨⟨0, hn⟩, hx⟩
        · exact h3 hc
      obtain ⟨j, hj⟩ := hex
      exact Finset.card_pos.mpr
        ⟨j, Finset.mem_filter.mpr ⟨Finset.mem_univ j, hj⟩⟩
    · calc execCount s ≤ (Finset.univ : Finset (Fin n)).card :=
            Finset.card_filter_le _ _
        _ = n := by simp

theorem creach_demo : CReach 1 cs5 :=
  Relation.ReflTransGen.head (CStep.acquire (cinit 1) 0 (by decide) rfl)
    (Relation.ReflTransGen.head (CStep.checkMiss cs1 0 (by decide) (by decide))
      (Relation.ReflTransGen.head (CStep.runFn cs2 0 (by decide))
        (Relation.ReflTransGen.head (CStep.writeCache cs3 0 (by decide))
          (Relation.ReflTransGen.head (CStep.release cs4 0 (by decide))
            Relation.ReflTransGen.refl))))

/-- C3 witness: the complete one-caller run reaches a final state where the
wrapped fn has executed exactly once. -/
theorem single_flight_execution_bounds_witness :
    1 ≤ execCount cs5 ∧ execCount cs5 ≤ 1 :=
  (single_flight_mutual_exclusion_and_execution_bounds creach_demo).2
    (by decide) (by intro i; fin_cases i; decide)

end AdObservatory
